import Mathlib

/-!
Shallow embedding of the `may_http` server core (files `src/server/request.rs`
and `src/server/mod.rs`) and proofs about it.

Conventions of the embedding:
* Byte buffers are `List UInt8`; a `Slice` is a `(start, end)` offset pair into
  the request's owning buffer, exactly as in `type Slice = (usize, usize)`.
* The httparse tokenizer is an external oracle (out of scope per the spec): the
  embedded `decode` takes the oracle's verdict (`ParseStatus`) as an argument,
  with offsets standing for the pointer-derived sub-slices.  The source's
  `assert!(start < buf.len())` in `toslice` and the bound check of
  `BytesMut::split_to` are kept as an explicit guard whose failure is the
  `panicked` outcome.
* Rust panics (`assert!`, `expect`, `unimplemented!`) are represented as
  explicit error/panic values so that theorems can talk about them.
* The `Rc<Read>` transport handle carried by a body reader is abstracted to an
  opaque `Nat` identifier; nothing in the verified code inspects it.
-/

namespace MayHttp

/-- ASCII bytes of a string literal (all strings used here are ASCII). -/
def asciiBytes (s : String) : List UInt8 :=
  s.toList.map (fun c => UInt8.ofNat c.toNat)

/-- `type Slice = (usize, usize)` from `request.rs`. -/
abbrev Slice := Nat × Nat

/-- The `BodyReader` variants visible from `request.rs` (`EmptyReader`,
`SizedReader(Rc<Read>, n)`) plus the chunked variant the spec describes; the
transport handle is an opaque `Nat`. -/
inductive BodyReader where
  | emptyReader : BodyReader
  | sizedReader (reader : Nat) (remaining : Nat) : BodyReader
  | chunkedReader (reader : Nat) : BodyReader
deriving DecidableEq, Repr

/-- `struct Request` from `request.rs`: method/path/header ranges into the
owning `data` buffer, the raw httparse minor-version byte, and the body reader. -/
structure Request where
  method : Slice
  path : Slice
  version : Nat
  headers : List (Slice × Slice)
  data : List UInt8
  body : BodyReader
deriving DecidableEq, Repr

/-- `Request::slice`: resolve a byte range inside the owning buffer
(`&self.data[slice.0..slice.1]`). -/
def Request.slice (req : Request) (s : Slice) : List UInt8 :=
  (req.data.drop s.1).take (s.2 - s.1)

/-- Verdict of the httparse oracle on the current buffer: a syntax error, an
incomplete head (`httparse::Status::Partial`, renamed here), or a complete head
with the field offsets and the consumed byte count `amt`. -/
inductive ParseStatus where
  | parseError : ParseStatus
  | moreInput : ParseStatus
  | complete (m p : Slice) (v : Nat) (hs : List (Slice × Slice)) (amt : Nat) : ParseStatus

/-- Outcome of `decode`: `err` is `Err(io::Error)`, `incomplete` is `Ok(None)`,
`ok` is `Ok(Some(request))`, and `panicked` models a failed
`assert!(start < buf.len())` or an out-of-bounds `split_to`. -/
inductive DecodeOutcome where
  | panicked : DecodeOutcome
  | err : DecodeOutcome
  | incomplete : DecodeOutcome
  | ok (req : Request) : DecodeOutcome
deriving DecidableEq, Repr

/-- `decode(buf)` from `request.rs`, parameterized by the tokenizer oracle's
verdict.  On `Complete(amt)` it turns the oracle offsets into slices (guarded
by the source's asserts), moves the first `amt` bytes into the request's owning
`data` via `split_to`, leaves the rest in the buffer, and attaches
`BodyReader::EmptyReader`.  The second component is the buffer after the call. -/
def decode (st : ParseStatus) (buf : List UInt8) : DecodeOutcome × List UInt8 :=
  match st with
  | ParseStatus.parseError => (DecodeOutcome.err, buf)
  | ParseStatus.moreInput => (DecodeOutcome.incomplete, buf)
  | ParseStatus.complete m p v hs amt =>
    if m.1 < buf.length ∧ p.1 < buf.length ∧
        (∀ h ∈ hs, h.1.1 < buf.length ∧ h.2.1 < buf.length) ∧ amt ≤ buf.length then
      (DecodeOutcome.ok
        { method := m, path := p, version := v, headers := hs,
          data := buf.take amt, body := BodyReader.emptyReader },
       buf.drop amt)
    else
      (DecodeOutcome.panicked, buf)

/-- ASCII lower-casing of one byte. -/
def asciiLower (b : UInt8) : UInt8 :=
  if 65 ≤ b.toNat ∧ b.toNat ≤ 90 then b + 32 else b

/-- ASCII-case-insensitive equality of byte strings. -/
def bytesEqCI (a b : List UInt8) : Bool :=
  a.map asciiLower == b.map asciiLower

/-- Linear scan of the header list: first name match (ASCII case-insensitive)
wins, its value bytes are returned. -/
def headersGetFrom (req : Request) : List (Slice × Slice) → List UInt8 → Option (List UInt8)
  | [], _ => none
  | (n, v) :: rest, key =>
    if bytesEqCI (req.slice n) key then some (req.slice v)
    else headersGetFrom req rest key

/-- Modelled from the spec: `RequestHeaders::get` is `unimplemented!()` in
`request.rs` (the spec's design notes flag it as a placeholder); the spec
defines lookup as a case-insensitive linear scan over the ordered header list
returning the first header whose name matches, `None` otherwise. -/
def RequestHeaders.get (req : Request) (key : List UInt8) : Option (List UInt8) :=
  headersGetFrom req req.headers key

/-- `RequestHeaders::contains_key` from `request.rs`:
`self.get(key).is_some()`. -/
def RequestHeaders.contains_key (req : Request) (key : List UInt8) : Bool :=
  (RequestHeaders.get req key).isSome

/-- Digit accumulation for `str::parse` of an unsigned integer. -/
def parseDigitsAux : List UInt8 → Nat → Option Nat
  | [], acc => some acc
  | b :: rest, acc =>
    if 48 ≤ b.toNat ∧ b.toNat ≤ 57 then parseDigitsAux rest (acc * 10 + (b.toNat - 48))
    else none

/-- `str::parse` of an unsigned integer: one or more ASCII digits, with an
optional leading `+`; anything else fails.  (The overflow bound of the concrete
machine type is not modelled; no claim depends on it.) -/
def parseContentLength (v : List UInt8) : Option Nat :=
  match v with
  | [] => none
  | b :: rest =>
    if b.toNat = 43 then
      match rest with
      | [] => none
      | _ => parseDigitsAux rest 0
    else parseDigitsAux (b :: rest) 0

/-- The panics reachable from `Request::set_reader`: the
`expect("failed to parse content length")` and the trailing
`unimplemented!()` behind `// TODO: add chunked reader`. -/
inductive SetReaderPanic where
  | contentLengthParse : SetReaderPanic
  | unimplementedChunked : SetReaderPanic
deriving DecidableEq, Repr

/-- Outcome of `Request::set_reader`: either the updated request or a panic. -/
inductive SetReaderOutcome where
  | ok (req : Request) : SetReaderOutcome
  | panicked (p : SetReaderPanic) : SetReaderOutcome
deriving DecidableEq, Repr

/-- Method token `GET` (the `http` crate's `Method` equality is byte equality
on the token). -/
def getToken : List UInt8 := asciiBytes "GET"

/-- Method token `HEAD`. -/
def headToken : List UInt8 := asciiBytes "HEAD"

/-- Header name `content-length` (the `CONTENT_LENGTH` constant). -/
def contentLengthName : List UInt8 := asciiBytes "content-length"

/-- Header name `transfer-encoding` (never consulted by `set_reader`). -/
def transferEncodingName : List UInt8 := asciiBytes "transfer-encoding"

/-- Header name `expect` (the `EXPECT` constant). -/
def expectName : List UInt8 := asciiBytes "expect"

/-- The exact wire token `100-continue`. -/
def continueToken : List UInt8 := asciiBytes "100-continue"

/-- `Request::set_reader` from `request.rs`: return immediately for GET/HEAD;
otherwise look up Content-Length, parse it (`expect` panics on failure) and
install `SizedReader`; with no Content-Length fall through to
`unimplemented!()`.  Transfer-Encoding is never consulted. -/
def Request.set_reader (req : Request) (reader : Nat) : SetReaderOutcome :=
  if req.slice req.method = getToken ∨ req.slice req.method = headToken then
    SetReaderOutcome.ok req
  else
    match RequestHeaders.get req contentLengthName with
    | some v =>
      match parseContentLength v with
      | some n => SetReaderOutcome.ok { req with body := BodyReader.sizedReader reader n }
      | none => SetReaderOutcome.panicked SetReaderPanic.contentLengthParse
    | none => SetReaderOutcome.panicked SetReaderPanic.unimplementedChunked

/-- `Request::version()`: raw minor-version byte 0 is HTTP/1.0, anything else
HTTP/1.1. -/
inductive HttpVersion where
  | http10 : HttpVersion
  | http11 : HttpVersion
deriving DecidableEq, Repr

/-- `Request::version()` from `request.rs`. -/
def Request.httpVersion (req : Request) : HttpVersion :=
  if req.version = 0 then HttpVersion.http10 else HttpVersion.http11

/-- The bytes `handle_expect` writes:
`write!(raw_rsp, "{:?} {}\r\n\r\n", Version::HTTP_11, StatusCode::CONTINUE)`,
i.e. the Debug form `HTTP/1.1` and the Display form `100 Continue`. -/
def interimResponse : List UInt8 := asciiBytes "HTTP/1.1 100 Continue\r\n\r\n"

/-- `handle_expect` from `server/mod.rs`: look up the Expect header (return
writing nothing when absent); when the version is HTTP/1.1 and the value is
byte-exactly `100-continue`, write and flush the interim response.  The result
is the bytes written to `raw_rsp`. -/
def handle_expect (req : Request) : Option (List UInt8) :=
  match RequestHeaders.get req expectName with
  | none => none
  | some v =>
    if req.httpVersion = HttpVersion.http11 ∧ v = continueToken then
      some interimResponse
    else none

/-- Modelled from the spec: the connection loop lives in `server_impl.rs`,
which is declared in `server/mod.rs` but absent from the sources; per the spec
it runs the Expect/Continue preliminary after decode and before the user
handler, so whatever `handle_expect` writes precedes all handler output on the
transport. -/
def serveExchange (req : Request) (handlerOutput : List UInt8) : List UInt8 :=
  (handle_expect req).getD [] ++ handlerOutput

/-- Concrete decoded request `POST / HTTP/1.1` carrying both
`Content-Length: 11` and `Transfer-Encoding: chunked` (Scenario C's ambiguous
framing). -/
def bothHeadersReq : Request :=
  { method := (0, 4), path := (5, 6), version := 1,
    headers := [((17, 31), (33, 35)), ((37, 54), (56, 63))],
    data := asciiBytes "POST / HTTP/1.1\r\nContent-Length: 11\r\nTransfer-Encoding: chunked\r\n\r\n",
    body := BodyReader.emptyReader }

/-- `bothHeadersReq` after `set_reader` installed `SizedReader(reader 0, 11)`. -/
def bothHeadersReqSized : Request :=
  { bothHeadersReq with body := BodyReader.sizedReader 0 11 }

/-- Concrete decoded request `POST / HTTP/1.1` with no body-framing headers. -/
def noFramingReq : Request :=
  { method := (0, 4), path := (5, 6), version := 1, headers := [],
    data := asciiBytes "POST / HTTP/1.1\r\n\r\n",
    body := BodyReader.emptyReader }

/-- Concrete decoded request `POST / HTTP/1.1` with the unparsable header
`Content-Length: abc`. -/
def badLengthReq : Request :=
  { method := (0, 4), path := (5, 6), version := 1,
    headers := [((17, 31), (33, 36))],
    data := asciiBytes "POST / HTTP/1.1\r\nContent-Length: abc\r\n\r\n",
    body := BodyReader.emptyReader }

/-- Concrete buffer `GET / HTTP/1.0` carrying a `Content-Length: 5` header
(Scenario B: the length header on a GET is ignored). -/
def getWithLengthBuf : List UInt8 := asciiBytes "GET / HTTP/1.0\r\nContent-Length: 5\r\n\r\n"

/-- The oracle verdict for `getWithLengthBuf`. -/
def getWithLengthStatus : ParseStatus :=
  ParseStatus.complete (0, 3) (4, 5) 0 [((16, 30), (32, 33))] 37

/-- The request `decode` builds from `getWithLengthBuf`. -/
def getWithLengthReq : Request :=
  { method := (0, 3), path := (4, 5), version := 0,
    headers := [((16, 30), (32, 33))],
    data := getWithLengthBuf, body := BodyReader.emptyReader }

/-- Concrete buffer holding the head `GET / HTTP/1.0\r\n\r\n` (18 bytes)
followed by two pipelined bytes `XY` that belong to the next request. -/
def pipelinedBuf : List UInt8 := asciiBytes "GET / HTTP/1.0\r\n\r\nXY"

/-- The request `decode` builds from `pipelinedBuf`: the 18-byte head becomes
the owning data, the pipelined tail stays in the buffer. -/
def pipelinedReq : Request :=
  { method := (0, 3), path := (4, 5), version := 0, headers := [],
    data := asciiBytes "GET / HTTP/1.0\r\n\r\n",
    body := BodyReader.emptyReader }

/-- A byte range that resolves inside a buffer of length `n`. -/
abbrev sliceWF (s : Slice) (n : Nat) : Prop := s.1 ≤ s.2 ∧ s.2 ≤ n

/-- httparse's contract for one returned range: it lies inside the consumed
head (`amt` bytes) and starts strictly before its end-of-head position. -/
abbrev oracleRangeOK (s : Slice) (amt : Nat) : Prop :=
  s.1 ≤ s.2 ∧ s.2 ≤ amt ∧ s.1 < amt

lemma handle_expect_eq (req : Request) :
    handle_expect req =
      if req.httpVersion = HttpVersion.http11 ∧
          RequestHeaders.get req expectName = some continueToken
      then some interimResponse else none := by
  unfold handle_expect
  cases h : RequestHeaders.get req expectName with
  | none => simp
  | some v => simp

lemma headersGetFrom_eq_find (req : Request) (hs : List (Slice × Slice)) (key : List UInt8) :
    headersGetFrom req hs key =
      (hs.find? (fun h => bytesEqCI (req.slice h.1) key)).map (fun h => req.slice h.2) := by
  induction hs with
  | nil => rfl
  | cons hd t ih =>
    obtain ⟨n, v⟩ := hd
    unfold headersGetFrom
    by_cases hc : bytesEqCI (req.slice n) key = true
    · rw [if_pos hc]
      simp [List.find?_cons, hc]
    · rw [if_neg hc, ih]
      simp [List.find?_cons, hc]

lemma decode_ok_body_aux (st : ParseStatus) (buf : List UInt8) (req : Request)
    (rest : List UInt8) (h : decode st buf = (DecodeOutcome.ok req, rest)) :
    req.body = BodyReader.emptyReader := by
  cases st with
  | parseError => simp [decode] at h
  | moreInput => simp [decode] at h
  | complete m p v hs amt =>
    rw [decode] at h
    split at h
    · injection h with h1 h2
      injection h1 with h1
      rw [← h1]
    · simp at h

/-- C4: the interim response `HTTP/1.1 100 Continue\r\n\r\n` is written by
`handle_expect` exactly when the request version is HTTP/1.1 and the Expect
header's value is byte-exactly `100-continue` (never for HTTP/1.0 or any other
value), and in the exchange these bytes precede all user-handler output. -/
theorem handle_expect_continue_iff (req : Request) (handlerOutput : List UInt8) :
    handle_expect req =
      (if req.httpVersion = HttpVersion.http11 ∧
          RequestHeaders.get req expectName = some continueToken
       then some interimResponse else none) ∧
    serveExchange req handlerOutput =
      (if req.httpVersion = HttpVersion.http11 ∧
          RequestHeaders.get req expectName = some continueToken
       then interimResponse else []) ++ handlerOutput := by
  refine ⟨handle_expect_eq req, ?_⟩
  unfold serveExchange
  rw [handle_expect_eq]
  by_cases hc : req.httpVersion = HttpVersion.http11 ∧
      RequestHeaders.get req expectName = some continueToken
  · rw [if_pos hc, if_pos hc]
    rfl
  · rw [if_neg hc, if_neg hc]
    rfl

/-- C6: header lookup returns the value of the first header whose name matches
the key ASCII-case-insensitively (`List.find?` is the first-match scan, `none`
when nothing matches), and `contains_key` is exactly "lookup succeeds". -/
theorem headers_get_first_ci_match (req : Request) (key : List UInt8) :
    RequestHeaders.get req key =
      (req.headers.find? (fun h => bytesEqCI (req.slice h.1) key)).map
        (fun h => req.slice h.2) ∧
    RequestHeaders.contains_key req key = (RequestHeaders.get req key).isSome :=
  ⟨headersGetFrom_eq_find req req.headers key, rfl⟩

/-- C7: when the tokenizer reports the head is not yet complete, `decode`
returns Incomplete — not Error — and the buffer is left entirely unchanged. -/
theorem decode_incomplete_preserves_buffer (buf : List UInt8) :
    decode ParseStatus.moreInput buf = (DecodeOutcome.incomplete, buf) := rfl

/-- C10: whenever `decode` returns a request, that request's body reader is
the `EmptyReader` variant; `decode` itself never attaches a sized or chunked
reader. -/
theorem decode_attaches_empty_reader (st : ParseStatus) (buf : List UInt8) (req : Request)
    (rest : List UInt8) (h : decode st buf = (DecodeOutcome.ok req, rest)) :
    req.body = BodyReader.emptyReader :=
  decode_ok_body_aux st buf req rest h

/-- Witness for C10 on the concrete pipelined buffer. -/
theorem decode_attaches_empty_reader_witness :
    decode (ParseStatus.complete (0, 3) (4, 5) 0 [] 18) pipelinedBuf =
      (DecodeOutcome.ok pipelinedReq, asciiBytes "XY") ∧
    pipelinedReq.body = BodyReader.emptyReader :=
  ⟨by decide,
   decode_attaches_empty_reader (ParseStatus.complete (0, 3) (4, 5) 0 [] 18) pipelinedBuf
     pipelinedReq (asciiBytes "XY") (by decide)⟩

/-- C5: for a decoded GET or HEAD request, `set_reader` returns the request
unchanged without consulting the headers, so the attached body reader stays
the `EmptyReader` that `decode` installed, regardless of any length headers. -/
theorem get_head_body_empty (st : ParseStatus) (buf : List UInt8) (req : Request)
    (rest : List UInt8) (reader : Nat)
    (hdec : decode st buf = (DecodeOutcome.ok req, rest))
    (hm : req.slice req.method = getToken ∨ req.slice req.method = headToken) :
    Request.set_reader req reader = SetReaderOutcome.ok req ∧
    req.body = BodyReader.emptyReader := by
  refine ⟨?_, decode_ok_body_aux st buf req rest hdec⟩
  unfold Request.set_reader
  rw [if_pos hm]

/-- Witness for C5: Scenario B, a GET carrying `Content-Length: 5`. -/
theorem get_head_body_empty_witness :
    decode getWithLengthStatus getWithLengthBuf = (DecodeOutcome.ok getWithLengthReq, []) ∧
    Request.set_reader getWithLengthReq 0 = SetReaderOutcome.ok getWithLengthReq ∧
    getWithLengthReq.body = BodyReader.emptyReader := by
  refine ⟨by decide, ?_⟩
  have h := get_head_body_empty getWithLengthStatus getWithLengthBuf getWithLengthReq [] 0
    (by decide) (by decide)
  exact ⟨h.1, h.2⟩

/-- C8: on a complete head, `decode` removes exactly `amt` bytes from the
front of the buffer and retains them as the request's owning data, and — given
httparse's contract that every returned range lies inside the consumed head —
every stored range (method, path, each header name and value) satisfies
`start ≤ end ≤ data.length`. -/
theorem decode_complete_ranges_wf (m p : Slice) (v : Nat) (hs : List (Slice × Slice))
    (amt : Nat) (buf : List UInt8)
    (hamt : amt ≤ buf.length)
    (hm : oracleRangeOK m amt) (hp : oracleRangeOK p amt)
    (hh : ∀ h ∈ hs, oracleRangeOK h.1 amt ∧ oracleRangeOK h.2 amt) :
    decode (ParseStatus.complete m p v hs amt) buf =
      (DecodeOutcome.ok
        { method := m, path := p, version := v, headers := hs,
          data := buf.take amt, body := BodyReader.emptyReader },
       buf.drop amt) ∧
    (buf.take amt).length = amt ∧
    buf.take amt ++ buf.drop amt = buf ∧
    sliceWF m (buf.take amt).length ∧ sliceWF p (buf.take amt).length ∧
    (∀ h ∈ hs, sliceWF h.1 (buf.take amt).length ∧ sliceWF h.2 (buf.take amt).length) := by
  have hlen : (buf.take amt).length = amt := by
    rw [List.length_take]
    exact Nat.min_eq_left hamt
  refine ⟨?_, hlen, List.take_append_drop amt buf, ?_, ?_, ?_⟩
  · rw [decode, if_pos]
    exact ⟨lt_of_lt_of_le hm.2.2 hamt, lt_of_lt_of_le hp.2.2 hamt,
      fun h hmem => ⟨lt_of_lt_of_le (hh h hmem).1.2.2 hamt,
        lt_of_lt_of_le (hh h hmem).2.2.2 hamt⟩, hamt⟩
  · exact ⟨hm.1, by rw [hlen]; exact hm.2.1⟩
  · exact ⟨hp.1, by rw [hlen]; exact hp.2.1⟩
  · intro h hmem
    exact ⟨⟨(hh h hmem).1.1, by rw [hlen]; exact (hh h hmem).1.2.1⟩,
      ⟨(hh h hmem).2.1, by rw [hlen]; exact (hh h hmem).2.2.1⟩⟩

/-- Witness for C8 on the concrete GET head with one header. -/
theorem decode_complete_ranges_wf_witness :
    decode (ParseStatus.complete (0, 3) (4, 5) 0 [((16, 30), (32, 33))] 37) getWithLengthBuf =
      (DecodeOutcome.ok
        { method := (0, 3), path := (4, 5), version := 0,
          headers := [((16, 30), (32, 33))],
          data := getWithLengthBuf.take 37, body := BodyReader.emptyReader },
       getWithLengthBuf.drop 37) ∧
    (getWithLengthBuf.take 37).length = 37 ∧
    getWithLengthBuf.take 37 ++ getWithLengthBuf.drop 37 = getWithLengthBuf ∧
    sliceWF (0, 3) (getWithLengthBuf.take 37).length ∧
    sliceWF (4, 5) (getWithLengthBuf.take 37).length := by
  have h := decode_complete_ranges_wf (0, 3) (4, 5) 0 [((16, 30), (32, 33))] 37
    getWithLengthBuf (by decide) (by decide) (by decide) (by decide)
  exact ⟨h.1, h.2.1, h.2.2.1, h.2.2.2.1, h.2.2.2.2.1⟩

/-- C9: `set_reader` is the only mutating operation on a decoded request and
it changes nothing but the body field: method, path, version, headers and the
owning data are unchanged in any non-panicking outcome. -/
theorem set_reader_preserves_view (req : Request) (reader : Nat) (req' : Request)
    (h : Request.set_reader req reader = SetReaderOutcome.ok req') :
    req'.method = req.method ∧ req'.path = req.path ∧ req'.version = req.version ∧
    req'.headers = req.headers ∧ req'.data = req.data := by
  unfold Request.set_reader at h
  split at h
  · injection h with h1
    rw [← h1]
    exact ⟨rfl, rfl, rfl, rfl, rfl⟩
  · split at h
    · split at h
      · injection h with h1
        rw [← h1]
        exact ⟨rfl, rfl, rfl, rfl, rfl⟩
      · simp at h
    · simp at h

/-- Witness for C9 on the concrete POST request with both framing headers. -/
theorem set_reader_preserves_view_witness :
    Request.set_reader bothHeadersReq 0 = SetReaderOutcome.ok bothHeadersReqSized ∧
    (bothHeadersReqSized.method = bothHeadersReq.method ∧
     bothHeadersReqSized.path = bothHeadersReq.path ∧
     bothHeadersReqSized.version = bothHeadersReq.version ∧
     bothHeadersReqSized.headers = bothHeadersReq.headers ∧
     bothHeadersReqSized.data = bothHeadersReq.data) :=
  ⟨by decide, set_reader_preserves_view bothHeadersReq 0 bothHeadersReqSized (by decide)⟩

/-- C1 counterexample: on a POST carrying both `Content-Length: 11` and
`Transfer-Encoding: chunked`, `set_reader` does not reject the ambiguous
framing — it succeeds and attaches `SizedReader(_, 11)`. -/
theorem both_headers_sized_not_error :
    RequestHeaders.get bothHeadersReq contentLengthName = some (asciiBytes "11") ∧
    RequestHeaders.get bothHeadersReq transferEncodingName = some (asciiBytes "chunked") ∧
    Request.set_reader bothHeadersReq 0 =
      SetReaderOutcome.ok { bothHeadersReq with body := BodyReader.sizedReader 0 11 } := by
  decide

/-- C1 amended: when the method is neither GET nor HEAD and both a parseable
Content-Length and a chunked Transfer-Encoding header are present, `set_reader`
attaches `SizedReader` with the parsed Content-Length; the Transfer-Encoding
header is never consulted, so the ambiguous combination is not rejected. -/
theorem content_length_precedence (req : Request) (reader : Nat) (v : List UInt8) (n : Nat)
    (hm : ¬(req.slice req.method = getToken ∨ req.slice req.method = headToken))
    (_hte : RequestHeaders.get req transferEncodingName = some (asciiBytes "chunked"))
    (hcl : RequestHeaders.get req contentLengthName = some v)
    (hn : parseContentLength v = some n) :
    Request.set_reader req reader =
      SetReaderOutcome.ok { req with body := BodyReader.sizedReader reader n } := by
  unfold Request.set_reader
  rw [if_neg hm]
  simp only [hcl, hn]

/-- Witness for the amended C1 on the concrete ambiguous POST. -/
theorem content_length_precedence_witness :
    Request.set_reader bothHeadersReq 0 =
      SetReaderOutcome.ok { bothHeadersReq with body := BodyReader.sizedReader 0 11 } :=
  content_length_precedence bothHeadersReq 0 (asciiBytes "11") 11
    (by decide) (by decide) (by decide) (by decide)

/-- C2 failing input: a POST with neither Content-Length nor chunked
Transfer-Encoding does not get the Empty reader — `set_reader` falls through
to the `unimplemented!()` behind `// TODO: add chunked reader` and panics. -/
theorem set_reader_no_framing_headers_panics :
    RequestHeaders.get noFramingReq contentLengthName = none ∧
    RequestHeaders.get noFramingReq transferEncodingName = none ∧
    Request.set_reader noFramingReq 0 =
      SetReaderOutcome.panicked SetReaderPanic.unimplementedChunked := by
  decide

/-- C3 failing input: a POST with the unparsable header `Content-Length: abc`
makes `set_reader` panic through `expect("failed to parse content length")` —
an uncontrolled abort, not a 400 response. -/
theorem set_reader_bad_content_length_panics :
    RequestHeaders.get badLengthReq contentLengthName = some (asciiBytes "abc") ∧
    Request.set_reader badLengthReq 0 =
      SetReaderOutcome.panicked SetReaderPanic.contentLengthParse := by
  decide

end MayHttp
